import Mathlib

/-!
A verification development for the vibe-downloader frontend, the client-side
synchronization engine of a download manager.  The TypeScript source is
shallowly embedded: pure functions become Lean functions, React component
state together with its effects becomes an explicit transition system on a
state record, and browser primitives (string methods, the URL parser, the
WebSocket close event) are modelled at the level of detail the verified
properties depend on.

Sections, in order:
  1. character-list string helpers mirroring the JavaScript string methods;
  2. the browser environment model (URL pathname, percent decoding);
  3. file-type detection (detectFileType / detectFileTypeFromFilename) and
     a spec-side detection definition used for refinement comparison;
  4. the downloads cache merge performed by the WebSocket onmessage handler;
  5. the AddDownloadDialog transition systems (URL-info fetch effect and the
     auto-start effect);
  6. the WebSocket connection-lifecycle transition system;
  7. theorems.
-/

namespace VibeDownloader

/-! ## 1. String helpers

The JavaScript string methods used by the source are modelled by structural
recursion over the character list of a Lean string, so that every definition
reduces in the kernel.  ASCII case folding is assumed, matching the data the
application handles (extensions, URLs). -/

/-- JavaScript s.split(sep) for a single-character separator: always returns
a non-empty list, with empty pieces kept (for example splitting the empty
string yields one empty piece). -/
def splitOnChar (sep : Char) : List Char → List (List Char)
  | [] => [[]]
  | c :: cs =>
    let rest := splitOnChar sep cs
    if c == sep then
      [] :: rest
    else
      match rest with
      | [] => [[c]]
      | piece :: pieces => (c :: piece) :: pieces

/-- JavaScript s.startsWith(p). -/
def listStartsWith : List Char → List Char → Bool
  | _, [] => true
  | [], _ :: _ => false
  | c :: cs, p :: ps => c == p && listStartsWith cs ps

def strStartsWith (s p : String) : Bool :=
  listStartsWith s.data p.data

/-- Whitespace stripped by JavaScript s.trim(), restricted to the common
ASCII whitespace characters. -/
def isSpaceChar (c : Char) : Bool :=
  c == ' ' || c == '\t' || c == '\n' || c == '\r'

def trimChars (l : List Char) : List Char :=
  ((l.dropWhile isSpaceChar).reverse.dropWhile isSpaceChar).reverse

/-- JavaScript s.trim(). -/
def strTrim (s : String) : String :=
  ⟨trimChars s.data⟩

/-- JavaScript s.toLowerCase(), ASCII fragment. -/
def strToLower (s : String) : String :=
  ⟨s.data.map Char.toLower⟩

/-- JavaScript s.includes(c) for a single character. -/
def strContainsChar (s : String) (c : Char) : Bool :=
  s.data.any (fun d => d == c)

/-- The last piece of a split, JavaScript array.pop() on the result of a
split (the split result is never empty). -/
def lastPiece (pieces : List (List Char)) : List Char :=
  pieces.getLastD []

/-! ## 2. Browser environment model

The dialog component calls two browser primitives: the WHATWG URL parser,
used only through new URL(s).pathname, and decodeURIComponent.  They are
modelled here for absolute http(s) URLs as they occur in this application:
after the scheme, leading slashes are skipped, the authority runs to the
first slash, question mark, or hash, and must be non-empty (otherwise the
constructor throws, modelled as none); the pathname is the part from that
slash up to a question mark or hash, defaulting to a single slash.
Dot-segment normalization and pathname re-encoding are not modelled.
Percent decoding is modelled byte-wise: a percent sign must be followed by
two hex digits, otherwise decodeURIComponent throws (none); multi-byte
UTF-8 recombination is not modelled. -/

/-- The numeric value of one hexadecimal digit of a percent escape, by code
point ranges: 48-57 are the decimal digits, 97-102 and 65-70 the lower and
upper case letters; anything else makes the escape malformed. -/
def hexDigitVal (c : Char) : Option Nat :=
  let n := c.toNat
  if 48 ≤ n ∧ n ≤ 57 then some (n - 48)
  else if 97 ≤ n ∧ n ≤ 102 then some (n - 87)
  else if 65 ≤ n ∧ n ≤ 70 then some (n - 55)
  else none

def percentDecode : List Char → Option (List Char)
  | [] => some []
  | '%' :: a :: b :: rest =>
    match hexDigitVal a, hexDigitVal b, percentDecode rest with
    | some ha, some hb, some r => some (Char.ofNat (16 * ha + hb) :: r)
    | _, _, _ => none
  | '%' :: _ => none
  | c :: rest => (percentDecode rest).map (c :: ·)

/-- decodeURIComponent, returning none where JavaScript throws. -/
def decodeURIComponent (s : String) : Option String :=
  (percentDecode s.data).map (⟨·⟩)

def isAuthorityEnd (c : Char) : Bool :=
  c == '/' || c == '?' || c == '#'

def isPathEnd (c : Char) : Bool :=
  c == '?' || c == '#'

/-- The pathname of new URL(s) for an absolute http(s) URL, none where the
URL constructor throws. -/
def urlPathname (s : String) : Option String :=
  let afterScheme :=
    if strStartsWith s "http://" then some (s.data.drop 7)
    else if strStartsWith s "https://" then some (s.data.drop 8)
    else none
  match afterScheme with
  | none => none
  | some rest =>
    let rest := rest.dropWhile (fun c => c == '/')
    let authority := rest.takeWhile (fun c => !isAuthorityEnd c)
    if authority.isEmpty then none
    else
      let afterAuthority := rest.dropWhile (fun c => !isAuthorityEnd c)
      match afterAuthority with
      | '/' :: _ => some ⟨afterAuthority.takeWhile (fun c => !isPathEnd c)⟩
      | _ => some "/"

/-! ## 3. File-type detection

CategoryConfig entries are kept as a list in configured order, matching the
iteration order of Object.entries over the configuration object. -/

structure FileTypeConfig where
  id : String
  name : String
  extensions : List String
  destination : String
deriving DecidableEq

/-- From src/frontend/src/components/AddDownloadDialog.tsx: extract a
filename from a URL; the last non-empty path segment, percent-decoded, is
returned when it contains a dot and does not start with one. -/
def extractFilenameFromUrl (urlString : String) : Option String :=
  match urlPathname urlString with
  | none => none
  | some pathname =>
    let segments := (splitOnChar '/' pathname.data).filter (fun seg => !seg.isEmpty)
    match segments.getLast? with
    | none => none
    | some lastSegment =>
      match decodeURIComponent ⟨lastSegment⟩ with
      | none => none
      | some decoded =>
        if strContainsChar decoded '.' && !(strStartsWith decoded ".") then
          some decoded
        else
          none

/-- From src/frontend/src/components/AddDownloadDialog.tsx: detect the
file-type category from the URL pathname extension. -/
def detectFileType (urlString : String)
    (fileTypes : Option (List FileTypeConfig)) : String :=
  match fileTypes with
  | none => "general"
  | some fts =>
    match urlPathname urlString with
    | none => "general"
    | some pathname =>
      let ext : String := ⟨lastPiece (splitOnChar '.' (strToLower pathname).data)⟩
      if ext = "" then "general"
      else
        match fts.find? (fun config =>
            config.extensions.any (fun e => strToLower e == ext)) with
        | some config => config.id
        | none => "general"

/-- From src/unnamed/part_000: detect the file-type category from a
filename extension; the piece after the last dot, lowercased, is compared
case-insensitively against each configured extension list in order. -/
def detectFileTypeFromFilename (filename : String)
    (fileTypes : Option (List FileTypeConfig)) : String :=
  match fileTypes with
  | none => "general"
  | some fts =>
    if filename = "" then "general"
    else
      let ext : String := strToLower ⟨lastPiece (splitOnChar '.' filename.data)⟩
      if ext = "" then "general"
      else
        match fts.find? (fun config =>
            config.extensions.any (fun e => strToLower e == ext)) with
        | some config => config.id
        | none => "general"

/-- The extension in the sense of the specification, section 4.6 step 1:
the substring after the last dot, lowercased; empty when the name contains
no dot. -/
def specExtension (name : String) : String :=
  if strContainsChar name '.' then
    strToLower ⟨lastPiece (splitOnChar '.' name.data)⟩
  else ""

/-- Detection as worded by the specification, steps 3 and 4 of section 4.6
(no remembered category): the first configured category, in configured
order, whose extension set contains the extension case-insensitively, and
the reserved default identifier when no extension exists or nothing
matches.  Used as the comparison point for refinement statements. -/
def specScanDetect (name : String) (fts : List FileTypeConfig) : String :=
  let ext := specExtension name
  if ext = "" then "general"
  else
    match fts.find? (fun config =>
        config.extensions.any (fun e => strToLower e == ext)) with
    | some config => config.id
    | none => "general"

/-! ## 4. The downloads cache and the WebSocket merge

From src/frontend/src/hooks/useWebSocket.ts: the onmessage handler merges a
parsed ProgressUpdate into the cached list of download records by mapping
over the list and rewriting the matching record. -/

inductive DownloadStatus
  | pending
  | queued
  | downloading
  | paused
  | completed
  | failed
  | cancelled
deriving DecidableEq

structure DownloadRecord where
  id : String
  url : String
  filename : String
  file_type : String
  total_size : Option Nat
  downloaded_size : Nat
  status : DownloadStatus
  error_message : Option String
deriving DecidableEq

structure ProgressUpdate where
  id : String
  downloaded : Nat
  total : Option Nat
  speed : Nat
  status : DownloadStatus
  error : Option String
deriving DecidableEq

/-- The cache update performed by the onmessage handler of useWebSocket:
every record whose id matches the update has its downloaded size, total
size, status and error message overwritten; other records are returned
unchanged. -/
def applyProgress (update : ProgressUpdate)
    (oldData : List DownloadRecord) : List DownloadRecord :=
  oldData.map fun download =>
    if download.id = update.id then
      { download with
          downloaded_size := update.downloaded
          total_size := update.total
          status := update.status
          error_message := update.error }
    else download

/-- A status is terminal in the sense of the specification when it is
completed, failed, or cancelled. -/
def statusTerminal : DownloadStatus → Bool
  | .completed => true
  | .failed => true
  | .cancelled => true
  | _ => false

/-! ## 5. The AddDownloadDialog

Two dialog variants appear in the source.  The variant in
src/frontend/src/components/AddDownloadDialog.tsx extracts the filename
from the URL synchronously in handleUrlChange and runs a 300 ms auto-start
effect; the variant in src/unnamed/part_000 fetches URL metadata from the
server in an effect.  Both are embedded; React semantics are made explicit:
an effect re-runs after any event that changes one of its dependencies,
cancelling the previous debounce timer, and a promise callback sees the
state values captured by the render that issued the request, not the
values current when the promise settles. -/

structure AddDialogForm where
  url : String
  fileType : String
  filename : String
deriving DecidableEq

/-- From src/frontend/src/components/AddDownloadDialog.tsx, handleUrlChange:
store the new URL; when it looks like an http(s) URL, fill the filename
field from the URL when a filename was extracted and the field is empty,
and set the detected file type. -/
def handleUrlChange (fileTypes : Option (List FileTypeConfig))
    (form : AddDialogForm) (newUrl : String) : AddDialogForm :=
  let form := { form with url := newUrl }
  if strStartsWith newUrl "http://" || strStartsWith newUrl "https://" then
    let form :=
      match extractFilenameFromUrl newUrl with
      | some extracted =>
        if extracted ≠ "" ∧ form.filename = "" then
          { form with filename := extracted }
        else form
      | none => form
    { form with fileType := detectFileType newUrl fileTypes }
  else form

/-! ### The URL-info fetch effect of src/unnamed/part_000 -/

structure UrlInfo where
  filename : Option String
  size : Option Nat
  content_type : Option String
deriving DecidableEq

/-- One in-flight getUrlInfo call.  The then-callback of the promise is a
closure over the render that issued the call, so the filename field value
and the fileTypes data it will consult are the ones captured at issue
time. -/
structure InflightRequest where
  requestUrl : String
  capturedFilename : String
  capturedFileTypes : Option (List FileTypeConfig)
deriving DecidableEq

structure MetaState where
  url : String
  fileType : String
  filename : String
  fetchingInfo : Bool
  lastFetchedUrl : String
  inflight : List InflightRequest
  fileTypes : Option (List FileTypeConfig)
deriving DecidableEq

/-- The effect body of the URL-info fetch effect (dependencies url,
filename, fileTypes): when the trimmed URL is a non-empty http(s) URL that
differs from lastFetchedUrl, record it in lastFetchedUrl, raise
fetchingInfo, and issue a getUrlInfo call capturing the current render's
filename and fileTypes. -/
def urlInfoEffect (s : MetaState) : MetaState :=
  let trimmedUrl := strTrim s.url
  if trimmedUrl ≠ "" ∧
      (strStartsWith trimmedUrl "http://" || strStartsWith trimmedUrl "https://") = true ∧
      trimmedUrl ≠ s.lastFetchedUrl then
    { s with
        lastFetchedUrl := trimmedUrl
        fetchingInfo := true
        inflight := s.inflight ++ [⟨trimmedUrl, s.filename, s.fileTypes⟩] }
  else s

def removeOneRequest (req : InflightRequest) :
    List InflightRequest → List InflightRequest
  | [] => []
  | r :: rs => if r = req then rs else r :: removeOneRequest req rs

inductive MetaEvent
  | setUrl (u : String)
  | setFilenameField (f : String)
  | setFileTypeField (t : String)
  | resolve (req : InflightRequest) (info : UrlInfo)
  | resolveError (req : InflightRequest)
deriving DecidableEq

/-- One step of the part_000 dialog: user edits re-run the fetch effect;
a resolving getUrlInfo call runs its then-callback (apply the suggested
filename and detect the file type only when the result has a filename and
the captured filename field was empty) and its finally-callback (clear
fetchingInfo); a failing call only clears fetchingInfo. -/
def metaStep (s : MetaState) : MetaEvent → MetaState
  | .setUrl u => urlInfoEffect { s with url := u }
  | .setFilenameField f => urlInfoEffect { s with filename := f }
  | .setFileTypeField t => urlInfoEffect { s with fileType := t }
  | .resolve req info =>
    if req ∈ s.inflight then
      let s1 := { s with inflight := removeOneRequest req s.inflight }
      match info.filename with
      | some f =>
        if f ≠ "" ∧ req.capturedFilename = "" then
          urlInfoEffect { s1 with
            filename := f
            fileType := detectFileTypeFromFilename f req.capturedFileTypes
            fetchingInfo := false }
        else { s1 with fetchingInfo := false }
      | none => { s1 with fetchingInfo := false }
    else s
  | .resolveError req =>
    if req ∈ s.inflight then
      { s with inflight := removeOneRequest req s.inflight, fetchingInfo := false }
    else s

def runMeta (s : MetaState) (events : List MetaEvent) : MetaState :=
  events.foldl metaStep s

def metaInit (fileTypes : Option (List FileTypeConfig)) : MetaState :=
  { url := ""
    fileType := "general"
    filename := ""
    fetchingInfo := false
    lastFetchedUrl := ""
    inflight := []
    fileTypes := fileTypes }

/-! ### The auto-start effect of
src/frontend/src/components/AddDownloadDialog.tsx -/

structure DialogState where
  url : String
  fileType : String
  filename : String
  autoStarted : Bool
  isPending : Bool
  activeCount : Nat
  maxConcurrent : Nat
  fileTypes : Option (List FileTypeConfig)
  timerArmed : Bool
  closed : Bool
  autoFires : Nat
  toasts : List String
deriving DecidableEq

/-- activeDownloads < maxConcurrent, with activeDownloads the number of
records in downloading status reported by the downloads query. -/
def dialogHasCapacity (s : DialogState) : Bool :=
  decide (s.activeCount < s.maxConcurrent)

/-- The condition of the auto-start effect: non-empty http(s) URL, spare
capacity, not already auto-started, no mutation in flight. -/
def autoStartCond (s : DialogState) : Bool :=
  (s.url != "") && dialogHasCapacity s && !s.autoStarted && !s.isPending &&
    (strStartsWith s.url "http://" || strStartsWith s.url "https://")

/-- Re-evaluate the auto-start effect after a render: the cleanup cancels
any previous debounce timer and a new one is armed exactly when the effect
condition holds. -/
def stabilizeDialog (s : DialogState) : DialogState :=
  { s with timerArmed := autoStartCond s }

inductive DialogEvent
  | editUrl (u : String)
  | editFileType (t : String)
  | editFilename (f : String)
  | dataUpdate (active maxc : Nat)
  | timerFire
  | submitForm
  | mutationSuccess (queued : Bool)
  | mutationError (msg : String)
deriving DecidableEq

/-- One step of the tsx dialog session.  Once the dialog is closed
(onClose ran) the component is unmounted and no further event has any
effect.  URL edits go through handleUrlChange; downloads/settings query
updates change the observed capacity; an armed debounce timer firing sets
autoStarted and issues the create mutation; mutation completion runs the
onSuccess handler (toast, close) or the onError handler (toast, reset of
autoStarted).  Manual submission is a no-op while a mutation is pending
because the submit button is disabled then.  Every state change
re-evaluates the effect. -/
def dialogStep (s : DialogState) (e : DialogEvent) : DialogState :=
  if s.closed then s
  else
    match e with
    | .editUrl u =>
      let form := handleUrlChange s.fileTypes ⟨s.url, s.fileType, s.filename⟩ u
      stabilizeDialog { s with
        url := form.url, fileType := form.fileType, filename := form.filename }
    | .editFileType t => stabilizeDialog { s with fileType := t }
    | .editFilename f => stabilizeDialog { s with filename := f }
    | .dataUpdate active maxc =>
      stabilizeDialog { s with activeCount := active, maxConcurrent := maxc }
    | .timerFire =>
      if s.timerArmed then
        stabilizeDialog { s with
          autoStarted := true, isPending := true, autoFires := s.autoFires + 1 }
      else s
    | .submitForm =>
      if strTrim s.url = "" then
        { s with toasts := "Please enter a URL" :: s.toasts }
      else if s.isPending then s
      else stabilizeDialog { s with isPending := true }
    | .mutationSuccess queued =>
      if s.isPending then
        { s with
            isPending := false
            closed := true
            toasts :=
              (if queued then "Download queued" else "Download started") :: s.toasts }
      else s
    | .mutationError msg =>
      if s.isPending then
        stabilizeDialog { s with
          isPending := false
          autoStarted := false
          toasts := ("Failed to add download: " ++ msg) :: s.toasts }
      else s

def runDialog (s : DialogState) (events : List DialogEvent) : DialogState :=
  events.foldl dialogStep s

/-- The dialog as mounted: empty fields, general file type, query data not
yet loaded so activeDownloads defaults to 0 and maxConcurrent to 3; the
first effect run leaves the timer unarmed because the URL is empty. -/
def dialogInit (fileTypes : Option (List FileTypeConfig)) : DialogState :=
  { url := ""
    fileType := "general"
    filename := ""
    autoStarted := false
    isPending := false
    activeCount := 0
    maxConcurrent := 3
    fileTypes := fileTypes
    timerArmed := false
    closed := false
    autoFires := 0
    toasts := [] }

/-! ## 6. The WebSocket connection lifecycle

From src/frontend/src/hooks/useWebSocket.ts.  Sockets are numbered in
creation order.  The connect callback creates a socket, stores it in
wsRef, and attaches handlers; the handlers are never detached.  Closing a
socket (by the network, by onerror, or by teardown calling close) queues a
close event which the browser delivers as a later task; delivering it runs
the still-attached onclose handler, which schedules a reconnect timer
unconditionally.  Teardown clears the reconnect timer and closes the
socket held in wsRef. -/

structure ConnState where
  nextId : Nat
  wsRef : Option Nat
  liveSockets : List Nat
  pendingCloseEvents : List Nat
  reconnectTimer : Bool
  tornDown : Bool
  connectCalls : Nat
deriving DecidableEq

def connectCall (s : ConnState) : ConnState :=
  { s with
      wsRef := some s.nextId
      nextId := s.nextId + 1
      liveSockets := s.liveSockets ++ [s.nextId]
      connectCalls := s.connectCalls + 1 }

/-- ws.close(): a live socket stops being live and a close event is queued
for later delivery. -/
def closeSocket (sock : Nat) (s : ConnState) : ConnState :=
  if sock ∈ s.liveSockets then
    { s with
        liveSockets := s.liveSockets.filter (fun x => x != sock)
        pendingCloseEvents := s.pendingCloseEvents ++ [sock] }
  else s

inductive ConnEvent
  | connect
  | socketClosed (sock : Nat)
  | deliverClose (sock : Nat)
  | reconnectTimerFires
  | teardown
deriving DecidableEq

def connStep (s : ConnState) : ConnEvent → ConnState
  | .connect => connectCall s
  | .socketClosed sock => closeSocket sock s
  | .deliverClose sock =>
    if sock ∈ s.pendingCloseEvents then
      { s with
          pendingCloseEvents := s.pendingCloseEvents.filter (fun x => x != sock)
          reconnectTimer := true }
    else s
  | .reconnectTimerFires =>
    if s.reconnectTimer then connectCall { s with reconnectTimer := false } else s
  | .teardown =>
    let s1 := { s with reconnectTimer := false, tornDown := true }
    match s.wsRef with
    | some sock => closeSocket sock s1
    | none => s1

def runConn (s : ConnState) (events : List ConnEvent) : ConnState :=
  events.foldl connStep s

def connInit : ConnState :=
  { nextId := 0
    wsRef := none
    liveSockets := []
    pendingCloseEvents := []
    reconnectTimer := false
    tornDown := false
    connectCalls := 0 }

/-! ## 7. Theorems

Concrete fixtures shared by several statements. -/

def sampleRecord : DownloadRecord :=
  { id := "d1"
    url := "http://h/f.mp4"
    filename := "f.mp4"
    file_type := "video"
    total_size := some 10
    downloaded_size := 5
    status := DownloadStatus.completed
    error_message := none }

def regressUpdate : ProgressUpdate :=
  { id := "d1"
    downloaded := 6
    total := some 10
    speed := 0
    status := DownloadStatus.downloading
    error := none }

def unknownUpdate : ProgressUpdate :=
  { id := "d2"
    downloaded := 6
    total := some 10
    speed := 0
    status := DownloadStatus.downloading
    error := none }

def cfgAV : List FileTypeConfig :=
  [⟨"video", "Video", ["mp4", "mkv"], "/videos"⟩,
   ⟨"docs", "Documents", ["pdf"], "/docs"⟩]

def cfgVideoOnly : List FileTypeConfig :=
  [⟨"video", "Video", ["mp4"], "/videos"⟩]

def cfgMemory : List FileTypeConfig :=
  [⟨"video", "Video", ["pdf"], "/videos"⟩,
   ⟨"docs", "Documents", ["doc"], "/docs"⟩]

def memPdfDocs : List (String × String) := [("pdf", "docs")]

/-! ### C8: progress updates for unknown identifiers are dropped -/

/-- Claim C8: a ProgressUpdate whose identifier matches no record in the
store changes nothing: no record is modified and no record is created. -/
theorem applyProgress_unknown_id_noop (u : ProgressUpdate)
    (store : List DownloadRecord) :
    (∀ r ∈ store, r.id ≠ u.id) → applyProgress u store = store := by
  induction store with
  | nil => intro _; rfl
  | cons r rs ih =>
    intro h
    have hr : r.id ≠ u.id := h r (by simp)
    have hrs := ih (fun x hx => h x (by simp [hx]))
    simp only [applyProgress, List.map_cons] at hrs ⊢
    rw [if_neg hr, hrs]

/-- Witness for C8 at a concrete store and update. -/
theorem applyProgress_unknown_id_noop_witness :
    applyProgress unknownUpdate [sampleRecord] = [sampleRecord] :=
  applyProgress_unknown_id_noop unknownUpdate [sampleRecord] (by decide)

/-! ### C1: terminal statuses are not absorbing in the code -/

/-- Claim C1 counterexample: the claim that a record whose status is
terminal keeps its status under any subsequent ProgressUpdate is false: the
onmessage merge overwrites the status of a completed record with the
update's downloading status. -/
theorem applyProgress_terminal_regression_cex :
    ¬ (∀ (u : ProgressUpdate) (store : List DownloadRecord),
        ∀ r ∈ store, statusTerminal r.status = true → r.id = u.id →
          ∀ r2 ∈ applyProgress u store, r2.id = u.id → r2.status = r.status) := by
  intro h
  have h2 := h regressUpdate [sampleRecord] sampleRecord (by decide) (by decide)
    (by decide)
    { sampleRecord with
        downloaded_size := 6, total_size := some 10,
        status := DownloadStatus.downloading, error_message := none }
    (by decide) (by decide)
  exact absurd h2 (by decide)

/-- Claim C1, amended: the onmessage merge overwrites the matching record's
downloaded size, total size, status and error message with the update's
values unconditionally; even when the record's status is terminal, the
resulting record carries the update's status (the no-regression guard of
the specification is not implemented). -/
theorem applyProgress_overwrites_status (u : ProgressUpdate)
    (store : List DownloadRecord) (r : DownloadRecord)
    (hmem : r ∈ store) (hid : r.id = u.id)
    (_hterm : statusTerminal r.status = true) :
    { r with
        downloaded_size := u.downloaded, total_size := u.total,
        status := u.status, error_message := u.error } ∈ applyProgress u store := by
  simpa only [applyProgress, if_pos hid] using
    List.mem_map_of_mem (fun download : DownloadRecord =>
      if download.id = u.id then
        { download with
            downloaded_size := u.downloaded, total_size := u.total,
            status := u.status, error_message := u.error }
      else download) hmem

/-- Witness for the amended C1 at a concrete completed record. -/
theorem applyProgress_overwrites_status_witness :
    { sampleRecord with
        downloaded_size := 6, total_size := some 10,
        status := DownloadStatus.downloading, error_message := none }
      ∈ applyProgress regressUpdate [sampleRecord] :=
  applyProgress_overwrites_status regressUpdate [sampleRecord] sampleRecord
    (by decide) (by decide) (by decide)

/-! ### C6 and C7: file-type detection -/

/-- On names containing a dot the code's detection coincides with the
configured-order scan worded by the specification. -/
theorem detect_eq_specScan_of_contains_dot (name : String)
    (fts : List FileTypeConfig) (h : strContainsChar name '.' = true) :
    detectFileTypeFromFilename name (some fts) = specScanDetect name fts := by
  have hne : name ≠ "" := by
    intro he
    subst he
    exact absurd h (by decide)
  simp only [detectFileTypeFromFilename, specScanDetect, specExtension,
    if_neg hne, if_pos h]

/-- Claim C7 counterexample: detection does not return the default category
when the name has no extension; the code uses the whole dotless name as the
extension, so the name mp4 matches a category listing the extension mp4
while the specification's algorithm returns general. -/
theorem detect_dotless_name_cex :
    ¬ (∀ (name : String) (fts : List FileTypeConfig),
        detectFileTypeFromFilename name (some fts) = specScanDetect name fts) := by
  intro h
  exact absurd (h "mp4" cfgVideoOnly) (by decide)

/-- Claim C7, amended: for every input name containing a dot, detection
extracts the lowercased substring after the last dot, returns the first
configured category in configured order whose extension set contains it
case-insensitively, and returns the reserved default identifier when the
extension is empty or nothing matches; a dotless name is instead scanned
with the whole lowercased name as the extension. -/
theorem detect_matches_spec_scan_on_dotted_names (name : String)
    (fts : List FileTypeConfig) (h : strContainsChar name '.' = true) :
    detectFileTypeFromFilename name (some fts) = specScanDetect name fts :=
  detect_eq_specScan_of_contains_dot name fts h

/-- Witness for the amended C7 at a concrete dotted name. -/
theorem detect_matches_spec_scan_on_dotted_names_witness :
    strContainsChar "movie.MP4" '.' = true ∧
    detectFileTypeFromFilename "movie.MP4" (some cfgVideoOnly) =
      specScanDetect "movie.MP4" cfgVideoOnly :=
  ⟨by decide,
   detect_matches_spec_scan_on_dotted_names "movie.MP4" cfgVideoOnly (by decide)⟩

/-- Claim C6 counterexample: a remembered extension-to-category association
whose category still exists in the configuration does not take precedence:
detection has no memory input and returns the configured-order scan result.
With pdf remembered as docs, and docs present in the configuration,
detection on file.pdf returns video, the first configured match. -/
theorem detect_ignores_remembered_category_cex :
    ¬ (∀ (mem : List (String × String)) (name : String)
        (fts : List FileTypeConfig) (cat : String),
        mem.lookup (specExtension name) = some cat →
        fts.any (fun c => c.id == cat) = true →
        detectFileTypeFromFilename name (some fts) = cat) := by
  intro h
  exact absurd (h memPdfDocs "file.pdf" cfgMemory "docs" (by decide) (by decide))
    (by decide)

/-- Claim C6, amended: detection consults no remembered association: even
when the extension of the name has a remembered category whose identifier
exists in the configuration, detection returns the configured-order scan
result of the specification, not the remembered category. -/
theorem detect_returns_scan_despite_memory (mem : List (String × String))
    (name : String) (fts : List FileTypeConfig) (cat : String)
    (hdot : strContainsChar name '.' = true)
    (_hmem : mem.lookup (specExtension name) = some cat)
    (_hcat : fts.any (fun c => c.id == cat) = true) :
    detectFileTypeFromFilename name (some fts) = specScanDetect name fts :=
  detect_eq_specScan_of_contains_dot name fts hdot

/-- Witness for the amended C6 at the remembered-pdf scenario. -/
theorem detect_returns_scan_despite_memory_witness :
    detectFileTypeFromFilename "file.pdf" (some cfgMemory) =
      specScanDetect "file.pdf" cfgMemory ∧
    specScanDetect "file.pdf" cfgMemory = "video" :=
  ⟨detect_returns_scan_despite_memory memPdfDocs "file.pdf" cfgMemory "docs"
      (by decide) (by decide) (by decide),
   by decide⟩

/-! ### C2 and C10: URL-info results and filename auto-fill -/

theorem urlInfoEffect_filename (t : MetaState) :
    (urlInfoEffect t).filename = t.filename := by
  simp only [urlInfoEffect]
  split <;> rfl

theorem urlInfoEffect_fileType (t : MetaState) :
    (urlInfoEffect t).fileType = t.fileType := by
  simp only [urlInfoEffect]
  split <;> rfl

/-- The then-callback of a getUrlInfo call leaves the filename and
file-type fields alone whenever the filename value it captured at issue
time is non-empty. -/
theorem resolve_frame_of_captured_nonempty (s : MetaState)
    (req : InflightRequest) (info : UrlInfo)
    (hcap : req.capturedFilename ≠ "") :
    (metaStep s (.resolve req info)).filename = s.filename ∧
    (metaStep s (.resolve req info)).fileType = s.fileType := by
  by_cases hmem : req ∈ s.inflight
  · cases hinfo : info.filename with
    | none => simp [metaStep, hmem, hinfo]
    | some f =>
      have hguard : ¬ (f ≠ "" ∧ req.capturedFilename = "") :=
        fun hand => hcap hand.2
      simp [metaStep, hmem, hinfo, hguard]
  · simp [metaStep, hmem]

def reqA : InflightRequest :=
  { requestUrl := "http://a.com/x.mp4"
    capturedFilename := ""
    capturedFileTypes := some cfgAV }

def reqUser : InflightRequest :=
  { requestUrl := "http://a.com/x.mp4"
    capturedFilename := "user.bin"
    capturedFileTypes := some cfgAV }

def infoA : UrlInfo :=
  { filename := some "x.mp4"
    size := some 1000
    content_type := some "video/mp4" }

/-- The state of the part_000 dialog after the URL was set to A and then
changed to B while A's metadata call is still in flight. -/
def staleState : MetaState :=
  runMeta (metaInit (some cfgAV))
    [.setUrl "http://a.com/x.mp4", .setUrl "http://b.com/y.pdf"]

/-- Claim C2 counterexample: a metadata result is applied even though the
URL it was resolved for no longer equals the current URL value at
completion time.  Reachable from the initial dialog state: set URL A, set
URL B, then A's call resolves; its suggested filename and derived file
type are applied although the current URL is B. -/
theorem urlInfo_stale_result_applied_cex :
    ¬ (∀ (s : MetaState) (req : InflightRequest) (info : UrlInfo),
        req.requestUrl ≠ strTrim s.url →
        (metaStep s (.resolve req info)).filename = s.filename ∧
        (metaStep s (.resolve req info)).fileType = s.fileType) := by
  intro h
  have h2 := h staleState reqA infoA (by decide)
  exact absurd h2.1 (by decide)

/-- Claim C2, amended: a completed getUrlInfo result is applied exactly
when the result carries a non-empty filename and the filename field value
captured when the fetch was issued was empty; the current URL is not
consulted, so a changed URL does not cause the result to be discarded
(lastFetchedUrl only prevents re-issuing a fetch for the same URL). -/
theorem urlInfo_applied_iff_captured_filename_empty (s : MetaState)
    (req : InflightRequest) (info : UrlInfo) :
    (req.capturedFilename ≠ "" →
      (metaStep s (.resolve req info)).filename = s.filename ∧
      (metaStep s (.resolve req info)).fileType = s.fileType) ∧
    (∀ f, info.filename = some f → f ≠ "" → req.capturedFilename = "" →
      req ∈ s.inflight →
      (metaStep s (.resolve req info)).filename = f ∧
      (metaStep s (.resolve req info)).fileType =
        detectFileTypeFromFilename f req.capturedFileTypes) := by
  constructor
  · exact fun hcap => resolve_frame_of_captured_nonempty s req info hcap
  · intro f hf hfne hcap hmem
    have hguard : f ≠ "" ∧ req.capturedFilename = "" := ⟨hfne, hcap⟩
    simp only [metaStep, if_pos hmem, hf, if_pos hguard]
    exact ⟨urlInfoEffect_filename _, urlInfoEffect_fileType _⟩

/-- Witness for the amended C2: the stale result from A is applied because
the captured filename field was empty, and a result captured with a
non-empty filename field is discarded. -/
theorem urlInfo_applied_iff_captured_filename_empty_witness :
    ((metaStep staleState (.resolve reqA infoA)).filename = "x.mp4" ∧
      (metaStep staleState (.resolve reqA infoA)).fileType =
        detectFileTypeFromFilename "x.mp4" (some cfgAV)) ∧
    (metaStep staleState (.resolve reqUser infoA)).filename =
      staleState.filename :=
  ⟨(urlInfo_applied_iff_captured_filename_empty staleState reqA infoA).2
      "x.mp4" rfl (by decide) rfl (by decide),
   ((urlInfo_applied_iff_captured_filename_empty staleState reqUser infoA).1
      (by decide)).1⟩

/-- The state of the part_000 dialog after the URL was set to A (issuing a
metadata call that captured an empty filename field) and the user then
typed a custom filename while the call is still in flight. -/
def editedState : MetaState :=
  runMeta (metaInit (some cfgAV))
    [.setUrl "http://a.com/x.mp4", .setFilenameField "custom"]

/-- Claim C10 counterexample: a metadata completion arriving while the
filename field is non-empty does not leave the field unchanged: the
emptiness test uses the stale value captured when the fetch was issued, so
the suggested filename overwrites the filename the user typed in the
meantime. -/
theorem filename_overwritten_after_user_edit_cex :
    ¬ (∀ (s : MetaState) (req : InflightRequest) (info : UrlInfo),
        s.filename ≠ "" →
        (metaStep s (.resolve req info)).filename = s.filename) := by
  intro h
  have h2 := h editedState reqA infoA (by decide)
  exact absurd h2 (by decide)

def formKeep : AddDialogForm :=
  { url := ""
    fileType := "general"
    filename := "keep.bin" }

/-- Claim C10, amended: the synchronous URL-change handler never overwrites
a non-empty filename field; the metadata completion path tests emptiness of
the filename value captured when the fetch was issued (each fetch captures
the field value current at issue time), so a completion whose captured
value is non-empty leaves the field unchanged, while a filename typed after
the fetch was issued can still be overwritten. -/
theorem filename_autofill_guards (ft : Option (List FileTypeConfig))
    (form : AddDialogForm) (u : String) (s t : MetaState)
    (req : InflightRequest) (info : UrlInfo)
    (hform : form.filename ≠ "") (hcap : req.capturedFilename ≠ "") :
    (handleUrlChange ft form u).filename = form.filename ∧
    ((urlInfoEffect t).inflight = t.inflight ∨
      (urlInfoEffect t).inflight =
        t.inflight ++ [⟨strTrim t.url, t.filename, t.fileTypes⟩]) ∧
    (metaStep s (.resolve req info)).filename = s.filename := by
  refine ⟨?_, ?_, (resolve_frame_of_captured_nonempty s req info hcap).1⟩
  · by_cases hb :
        (strStartsWith u "http://" || strStartsWith u "https://") = true
    · cases hx : extractFilenameFromUrl u with
      | none => simp [handleUrlChange, hb, hx]
      | some extracted =>
        have hguard : ¬ (extracted ≠ "" ∧ form.filename = "") :=
          fun hand => hform hand.2
        simp [handleUrlChange, hb, hx, hguard]
    · simp [handleUrlChange, hb]
  · simp only [urlInfoEffect]
    split
    · exact Or.inr rfl
    · exact Or.inl rfl

/-- Witness for the amended C10 at concrete form, effect and completion
states. -/
theorem filename_autofill_guards_witness :
    (handleUrlChange (some cfgAV) formKeep "http://a.com/x.mp4").filename =
      formKeep.filename ∧
    ((urlInfoEffect (metaInit (some cfgAV))).inflight =
        (metaInit (some cfgAV)).inflight ∨
      (urlInfoEffect (metaInit (some cfgAV))).inflight =
        (metaInit (some cfgAV)).inflight ++
          [⟨strTrim (metaInit (some cfgAV)).url,
            (metaInit (some cfgAV)).filename,
            (metaInit (some cfgAV)).fileTypes⟩]) ∧
    (metaStep staleState (.resolve reqUser infoA)).filename =
      staleState.filename :=
  filename_autofill_guards (some cfgAV) formKeep "http://a.com/x.mp4"
    staleState (metaInit (some cfgAV)) reqUser infoA (by decide) (by decide)

/-! ### C3, C4, C5: the auto-start scheduler -/

theorem dialogStep_closed (s : DialogState) (e : DialogEvent)
    (h : s.closed = true) : dialogStep s e = s := by
  simp [dialogStep, h]

theorem runDialog_closed (s : DialogState) (evs : List DialogEvent)
    (h : s.closed = true) : runDialog s evs = s := by
  induction evs with
  | nil => rfl
  | cons e evs ih =>
    show runDialog (dialogStep s e) evs = s
    rw [dialogStep_closed s e h]
    exact ih

/-- Claim C3: within one dialog session, once the auto-start timer has
fired and its create mutation succeeded, no further automatic create
mutation is issued, no matter which events follow (input edits, capacity
changes, further timers): onSuccess closes the dialog, ending the
session. -/
theorem autoStart_single_fire_after_success (s : DialogState) (q : Bool)
    (evs : List DialogEvent) (hp : s.isPending = true)
    (hc : s.closed = false) :
    (runDialog (dialogStep s (.mutationSuccess q)) evs).autoFires =
      s.autoFires := by
  have hstep : dialogStep s (.mutationSuccess q) =
      { s with
          isPending := false
          closed := true
          toasts :=
            (if q then "Download queued" else "Download started") :: s.toasts } := by
    simp [dialogStep, hc, hp]
  rw [hstep, runDialog_closed _ _ rfl]

/-- The session state after the auto-start timer has fired: URL pasted with
capacity available, debounce elapsed, create mutation in flight. -/
def firedState : DialogState :=
  runDialog (dialogInit (some cfgAV))
    [.dataUpdate 2 3, .editUrl "http://h/f.mp4", .timerFire]

/-- Witness for C3: after the fire and a successful mutation, further URL
edits, capacity updates and timer events issue no further mutation. -/
theorem autoStart_single_fire_after_success_witness :
    (runDialog (dialogStep firedState (.mutationSuccess false))
        [.editUrl "http://h/g.mkv", .dataUpdate 0 3, .timerFire]).autoFires =
      firedState.autoFires :=
  autoStart_single_fire_after_success firedState false
    [.editUrl "http://h/g.mkv", .dataUpdate 0 3, .timerFire]
    (by decide) (by decide)

def isInputEdit : DialogEvent → Bool
  | .editUrl _ => true
  | .editFileType _ => true
  | .editFilename _ => true
  | _ => false

def isMutationError : DialogEvent → Bool
  | .mutationError _ => true
  | _ => false

/-- Claim C4 counterexample: it is not true that, from a state without
capacity, the scheduler issues no automatic mutation until some input
changes.  Reachable from the mounted dialog: with three active downloads
out of three, pasting a URL arms nothing and issues nothing, but as soon
as the downloads data reports freed capacity — not an input change — the
effect re-evaluates, arms the debounce timer, and fires. -/
theorem autoStart_fires_on_freed_capacity_cex :
    ¬ (∀ (s : DialogState) (evs : List DialogEvent),
        dialogHasCapacity s = false →
        (∀ e ∈ evs, isInputEdit e = false) →
        (runDialog s evs).autoFires = s.autoFires) := by
  intro h
  have h2 := h
    (runDialog (dialogInit (some cfgAV))
      [.dataUpdate 3 3, .editUrl "http://h/f.mp4"])
    [.dataUpdate 2 3, .timerFire] (by decide) (by decide)
  exact absurd h2 (by decide)

/-- A dialog state is stable when an armed debounce timer implies the
auto-start effect condition: every effect re-evaluation establishes this,
and the mounted dialog starts with the timer unarmed. -/
def dialogStable (s : DialogState) : Prop :=
  s.timerArmed = true → autoStartCond s = true

theorem stabilizeDialog_stable (t : DialogState) :
    dialogStable (stabilizeDialog t) := by
  intro h
  exact h

theorem dialogStep_stable (s : DialogState) (e : DialogEvent)
    (h : dialogStable s) : dialogStable (dialogStep s e) := by
  by_cases hc : s.closed = true
  · rw [dialogStep_closed s e hc]
    exact h
  · have hc2 : s.closed = false := by
      cases hcl : s.closed
      · rfl
      · exact absurd hcl hc
    cases e with
    | editUrl u =>
      simp only [dialogStep, hc2, Bool.false_eq_true, if_false]
      exact stabilizeDialog_stable _
    | editFileType t =>
      simp only [dialogStep, hc2, Bool.false_eq_true, if_false]
      exact stabilizeDialog_stable _
    | editFilename f =>
      simp only [dialogStep, hc2, Bool.false_eq_true, if_false]
      exact stabilizeDialog_stable _
    | dataUpdate a m =>
      simp only [dialogStep, hc2, Bool.false_eq_true, if_false]
      exact stabilizeDialog_stable _
    | timerFire =>
      by_cases ht : s.timerArmed = true
      · simp only [dialogStep, hc2, Bool.false_eq_true, if_false, ht, if_true]
        exact stabilizeDialog_stable _
      · simp only [dialogStep, hc2, Bool.false_eq_true, if_false, ht, if_false]
        exact h
    | submitForm =>
      by_cases hu : strTrim s.url = ""
      · simp only [dialogStep, hc2, Bool.false_eq_true, if_false, hu, if_true]
        intro harm
        have hcond := h harm
        simpa [autoStartCond, dialogHasCapacity] using hcond
      · by_cases hp : s.isPending = true
        · simp only [dialogStep, hc2, Bool.false_eq_true, if_false, hu,
            if_false, hp, if_true]
          exact h
        · simp only [dialogStep, hc2, Bool.false_eq_true, if_false, hu,
            if_false, hp]
          exact stabilizeDialog_stable _
    | mutationSuccess q =>
      by_cases hp : s.isPending = true
      · simp only [dialogStep, hc2, Bool.false_eq_true, if_false, hp, if_true]
        intro harm
        have hcond := h harm
        simp only [autoStartCond, Bool.and_eq_true, Bool.not_eq_true'] at hcond
        exact absurd hp (by simp [hcond.1.2])
      · simp only [dialogStep, hc2, Bool.false_eq_true, if_false, hp, if_false]
        exact h
    | mutationError msg =>
      by_cases hp : s.isPending = true
      · simp only [dialogStep, hc2, Bool.false_eq_true, if_false, hp, if_true]
        exact stabilizeDialog_stable _
      · simp only [dialogStep, hc2, Bool.false_eq_true, if_false, hp, if_false]
        exact h

theorem runDialog_stable (s : DialogState) (evs : List DialogEvent)
    (h : dialogStable s) : dialogStable (runDialog s evs) := by
  induction evs generalizing s with
  | nil => exact h
  | cons e evs ih =>
    show dialogStable (runDialog (dialogStep s e) evs)
    exact ih _ (dialogStep_stable s e h)

/-- Only an armed debounce timer firing increments the count of
automatically issued create mutations. -/
theorem autoFires_increase_implies_armed (s : DialogState) (e : DialogEvent)
    (h : (dialogStep s e).autoFires ≠ s.autoFires) : s.timerArmed = true := by
  by_cases hc : s.closed = true
  · rw [dialogStep_closed s e hc] at h
    exact absurd rfl h
  · have hc2 : s.closed = false := by
      cases hcl : s.closed
      · rfl
      · exact absurd hcl hc
    cases e with
    | editUrl u =>
      simp only [dialogStep, hc2, Bool.false_eq_true, if_false,
        stabilizeDialog] at h
      exact absurd rfl h
    | editFileType t =>
      simp only [dialogStep, hc2, Bool.false_eq_true, if_false,
        stabilizeDialog] at h
      exact absurd rfl h
    | editFilename f =>
      simp only [dialogStep, hc2, Bool.false_eq_true, if_false,
        stabilizeDialog] at h
      exact absurd rfl h
    | dataUpdate a m =>
      simp only [dialogStep, hc2, Bool.false_eq_true, if_false,
        stabilizeDialog] at h
      exact absurd rfl h
    | timerFire =>
      by_cases ht : s.timerArmed = true
      · exact ht
      · simp only [dialogStep, hc2, Bool.false_eq_true, if_false, ht, if_false] at h
        exact absurd rfl h
    | submitForm =>
      by_cases hu : strTrim s.url = ""
      · simp only [dialogStep, hc2, Bool.false_eq_true, if_false, hu, if_true] at h
        exact absurd rfl h
      · by_cases hp : s.isPending = true
        · simp only [dialogStep, hc2, Bool.false_eq_true, if_false, hu,
            if_false, hp, if_true] at h
          exact absurd rfl h
        · simp only [dialogStep, hc2, Bool.false_eq_true, if_false, hu,
            if_false, hp, if_false, stabilizeDialog] at h
          exact absurd rfl h
    | mutationSuccess q =>
      by_cases hp : s.isPending = true
      · simp only [dialogStep, hc2, Bool.false_eq_true, if_false, hp, if_true] at h
        exact absurd rfl h
      · simp only [dialogStep, hc2, Bool.false_eq_true, if_false, hp, if_false] at h
        exact absurd rfl h
    | mutationError msg =>
      by_cases hp : s.isPending = true
      · simp only [dialogStep, hc2, Bool.false_eq_true, if_false, hp, if_true,
          stabilizeDialog] at h
        exact absurd rfl h
      · simp only [dialogStep, hc2, Bool.false_eq_true, if_false, hp, if_false] at h
        exact absurd rfl h

/-- Claim C4, amended: from the mounted dialog, an automatic create
mutation is issued only from a state in which capacity exists (active
count strictly below the configured maximum); without capacity no debounce
timer is armed and zero mutations are issued — but the scheduler is not
armed either, and it re-evaluates when the observed downloads or settings
data change, so it can fire once capacity frees without any input
change. -/
theorem autoStart_fires_only_with_capacity
    (ft : Option (List FileTypeConfig)) (evs : List DialogEvent)
    (e : DialogEvent)
    (h : (dialogStep (runDialog (dialogInit ft) evs) e).autoFires >
      (runDialog (dialogInit ft) evs).autoFires) :
    (runDialog (dialogInit ft) evs).activeCount <
      (runDialog (dialogInit ft) evs).maxConcurrent := by
  have hinit : dialogStable (dialogInit ft) := by
    intro harm
    simp [dialogInit] at harm
  have hstable := runDialog_stable (dialogInit ft) evs hinit
  have harm := autoFires_increase_implies_armed _ e (Ne.symm (Nat.ne_of_lt h))
  have hcond := hstable harm
  simp only [autoStartCond, Bool.and_eq_true, dialogHasCapacity,
    decide_eq_true_eq] at hcond
  exact hcond.1.1.1.2

/-- Witness for the amended C4: with two of three slots active and a pasted
URL, the timer fire issues the mutation and capacity indeed existed. -/
theorem autoStart_fires_only_with_capacity_witness :
    (runDialog (dialogInit (some cfgAV))
        [.dataUpdate 2 3, .editUrl "http://h/f.mp4"]).activeCount <
      (runDialog (dialogInit (some cfgAV))
        [.dataUpdate 2 3, .editUrl "http://h/f.mp4"]).maxConcurrent :=
  autoStart_fires_only_with_capacity (some cfgAV)
    [.dataUpdate 2 3, .editUrl "http://h/f.mp4"] .timerFire (by decide)

theorem autoStartCond_false_of_autoStarted (t : DialogState)
    (h : t.autoStarted = true) : autoStartCond t = false := by
  simp [autoStartCond, h]

/-- Any event other than a mutation failure keeps the autoStarted flag
raised, leaves the debounce timer unarmed, and issues no automatic
mutation. -/
theorem noerror_step_preserves (t : DialogState) (e : DialogEvent)
    (he : isMutationError e = false)
    (h1 : t.autoStarted = true) (h2 : t.timerArmed = false) :
    (dialogStep t e).autoStarted = true ∧
    (dialogStep t e).timerArmed = false ∧
    (dialogStep t e).autoFires = t.autoFires := by
  by_cases hc : t.closed = true
  · rw [dialogStep_closed t e hc]
    exact ⟨h1, h2, rfl⟩
  · have hc2 : t.closed = false := by
      cases hcl : t.closed
      · rfl
      · exact absurd hcl hc
    cases e with
    | editUrl u =>
      simp [dialogStep, hc2, stabilizeDialog, autoStartCond, h1]
    | editFileType x =>
      simp [dialogStep, hc2, stabilizeDialog, autoStartCond, h1]
    | editFilename f =>
      simp [dialogStep, hc2, stabilizeDialog, autoStartCond, h1]
    | dataUpdate a m =>
      simp [dialogStep, hc2, stabilizeDialog, autoStartCond, h1]
    | timerFire =>
      simp [dialogStep, hc2, h1, h2]
    | submitForm =>
      by_cases hu : strTrim t.url = ""
      · simp [dialogStep, hc2, hu, h1, h2]
      · by_cases hp : t.isPending = true
        · simp [dialogStep, hc2, hu, hp, h1, h2]
        · simp [dialogStep, hc2, hu, hp, stabilizeDialog, autoStartCond, h1]
    | mutationSuccess q =>
      by_cases hp : t.isPending = true
      · simp [dialogStep, hc2, hp, h1, h2]
      · simp [dialogStep, hc2, hp, h1, h2]
    | mutationError msg =>
      exact absurd he (by simp [isMutationError])

theorem noerror_run_preserves (t : DialogState) (evs : List DialogEvent)
    (hall : ∀ e ∈ evs, isMutationError e = false)
    (h1 : t.autoStarted = true) (h2 : t.timerArmed = false) :
    (runDialog t evs).autoFires = t.autoFires := by
  induction evs generalizing t with
  | nil => rfl
  | cons e evs ih =>
    have he := hall e (by simp)
    have hstep := noerror_step_preserves t e he h1 h2
    show (runDialog (dialogStep t e) evs).autoFires = t.autoFires
    rw [ih (dialogStep t e) (fun x hx => hall x (by simp [hx]))
      hstep.1 hstep.2.1, hstep.2.2]

/-- Claim C5: when a create mutation fails, the onError handler rolls the
autoStarted flag back and surfaces a human-readable message, permitting
the scheduler to fire once more; and from any state in which the retry has
fired (autoStarted raised, timer unarmed), no further automatic mutation is
issued by any sequence of events that contains no further mutation
failure. -/
theorem mutationError_rollback_single_retry (s : DialogState) (msg : String)
    (t : DialogState) (evs : List DialogEvent)
    (hp : s.isPending = true) (hc : s.closed = false)
    (ht1 : t.autoStarted = true) (ht2 : t.timerArmed = false)
    (hall : ∀ e ∈ evs, isMutationError e = false) :
    ((dialogStep s (.mutationError msg)).autoStarted = false ∧
      (dialogStep s (.mutationError msg)).toasts =
        ("Failed to add download: " ++ msg) :: s.toasts) ∧
    (runDialog t evs).autoFires = t.autoFires := by
  constructor
  · simp [dialogStep, hc, hp, stabilizeDialog]
  · exact noerror_run_preserves t evs hall ht1 ht2

/-- The session state after the auto-issued mutation failed once and the
permitted retry has fired. -/
def retryFiredState : DialogState :=
  dialogStep (dialogStep firedState (.mutationError "network down")) .timerFire

/-- Witness for C5: the failure resets the flag and pushes the error
toast; from the retry-fired state, further edits, capacity updates and
timer events issue no further automatic mutation. -/
theorem mutationError_rollback_single_retry_witness :
    ((dialogStep firedState (.mutationError "boom")).autoStarted = false ∧
      (dialogStep firedState (.mutationError "boom")).toasts =
        ("Failed to add download: " ++ "boom") :: firedState.toasts) ∧
    (runDialog retryFiredState
        [.editUrl "http://h/z.mp4", .dataUpdate 1 3, .timerFire]).autoFires =
      retryFiredState.autoFires :=
  mutationError_rollback_single_retry firedState "boom" retryFiredState
    [.editUrl "http://h/z.mp4", .dataUpdate 1 3, .timerFire]
    (by decide) (by decide) (by decide) (by decide) (by decide)

/-! ### C9: connection teardown -/

/-- Claim C9 fails on the code: teardown does cancel the pending reconnect
timer and does close the live connection, but the socket's close event is
delivered afterwards and the still-attached onclose handler runs,
scheduling a reconnect; when that timer fires, a new connection is created
after teardown.  This evaluates the lifecycle model on the failing trace:
connect, teardown, close-event delivery, reconnect-timer fire. -/
theorem useWebSocket_reconnect_after_teardown :
    (runConn connInit [.connect, .teardown]).tornDown = true ∧
    (runConn connInit [.connect, .teardown]).reconnectTimer = false ∧
    (runConn connInit [.connect, .teardown]).liveSockets = [] ∧
    (runConn connInit [.connect, .teardown, .deliverClose 0]).reconnectTimer
      = true ∧
    (runConn connInit
      [.connect, .teardown, .deliverClose 0, .reconnectTimerFires]).connectCalls
      = 2 ∧
    (runConn connInit
      [.connect, .teardown, .deliverClose 0, .reconnectTimerFires]).liveSockets
      = [1] := by
  decide

end VibeDownloader
